import Mathlib

/-
Verification development for the ClickUp Taskmaster remote MCP adapter
(Cloudflare Worker, TypeScript).  The definitions below are a shallow
embedding of the repository's source:

  - src/config.ts            : CLICKUP_CONFIG, Env
  - src/auth/oauth.ts        : encryptToken, decryptToken, getStoredToken,
                               revokeToken, handleLogout, handleCallback
  - src/tools/tasks.ts       : listTasksSchema, listTasks
  - src/tools/custom-fields.ts : setCustomFieldSchema, setCustomField
  - src/tools/docs.ts        : createDocSchema, createDoc
  - src/index.ts (MyMCP) and the ClickUpMCP variant: the tool dispatchers

JavaScript effects are made explicit: the Workers KV namespace is an
association-list store threaded through the OAuth handlers, every HTTP
fetch performed by a client function is recorded in a request list, and
upstream responses are passed in as parameters.  Platform primitives that
the worker merely calls (AES-GCM via WebCrypto, TextEncoder/TextDecoder,
JSON.stringify/JSON.parse of the token record, btoa/atob) are modelled as
a parameter structure carrying the functions together with their
standard round-trip contracts; a concrete executable instance is built
further down so that every theorem can be evaluated on concrete inputs.
-/

namespace ClickUpMCP

/-- JavaScript truthiness of an optional string: null/undefined and the
empty string are falsy. -/
def jsTruthyStr (o : Option String) : Bool :=
  (o.getD "") != ""

instance {ε α : Type} [DecidableEq ε] [DecidableEq α] : DecidableEq (Except ε α)
  | .error x, .error y =>
    if h : x = y then .isTrue (by rw [h]) else .isFalse (fun he => h (Except.error.inj he))
  | .error _, .ok _ => .isFalse Except.noConfusion
  | .ok _, .error _ => .isFalse Except.noConfusion
  | .ok x, .ok y =>
    if h : x = y then .isTrue (by rw [h]) else .isFalse (fun he => h (Except.ok.inj he))

/-- The Workers KV namespace, modelled as an association list from key to
stored string value.  TTLs are not modelled (no claim depends on expiry
by wall-clock time). -/
def Store := List (String × String)

instance : DecidableEq Store := inferInstanceAs (DecidableEq (List (String × String)))

/-- KV get: first binding for the key, if any. -/
def kvGet (s : Store) (k : String) : Option String :=
  (List.find? (fun p => p.1 == k) s).map (·.2)

/-- KV delete: removes every binding for the key (deleting an absent key
is a no-op, as in Workers KV). -/
def kvDelete (s : Store) (k : String) : Store :=
  List.filter (fun p => p.1 != k) s

/-- KV put: overwrites any previous binding for the key. -/
def kvPut (s : Store) (k v : String) : Store :=
  (k, v) :: kvDelete s k

/-- Token record persisted by the OAuth subsystem (interface OAuthToken in
src/auth/oauth.ts). -/
structure OAuthToken where
  access_token : String
  token_type : String
  created_at : Nat
deriving DecidableEq, Repr

/-- Worker environment bindings (interface Env in src/config.ts).  String
secrets use the empty string for the unset/falsy case, matching the
JavaScript truthiness checks in the source; CLICKUP_API_TOKEN is optional
in the source and is kept optional here. -/
structure Env where
  CLICKUP_CLIENT_ID : String
  CLICKUP_CLIENT_SECRET : String
  COOKIE_ENCRYPTION_KEY : String
  CLICKUP_API_TOKEN : Option String
deriving DecidableEq, Repr

/-- Platform primitives used by src/auth/oauth.ts, with their standard
contracts.  serializeToken bundles JSON.stringify with TextEncoder (a
token record to bytes); deserializeToken bundles TextDecoder with
JSON.parse and is partial, since decoding or parsing corrupt bytes
throws.  aesGcmEncrypt/aesGcmDecrypt take key bytes, an initialization
vector and data; decryption of a tampered ciphertext throws, hence the
Option.  btoaFn/atobFn are the base64 codec applied to the binary string.
keyBytes is TextEncoder applied to the (already normalized) key string. -/
structure CryptoPrims where
  serializeToken : OAuthToken → List Nat
  deserializeToken : List Nat → Option OAuthToken
  serialize_rt : ∀ t, deserializeToken (serializeToken t) = some t
  aesGcmEncrypt : List Nat → List Nat → List Nat → List Nat
  aesGcmDecrypt : List Nat → List Nat → List Nat → Option (List Nat)
  aes_rt : ∀ key iv d, aesGcmDecrypt key iv (aesGcmEncrypt key iv d) = some d
  btoaFn : List Nat → String
  atobFn : String → Option (List Nat)
  base64_rt : ∀ bs, atobFn (btoaFn bs) = some bs
  keyBytes : String → List Nat

/-- Key normalization performed inline by both encryptToken and
decryptToken in src/auth/oauth.ts: encryptionKey.padEnd(32, "0")
followed by .slice(0, 32). -/
def normalizeKey (k : String) : String :=
  String.mk ((k.data ++ List.replicate (32 - k.data.length) '0').take 32)

/-- Embedding of encryptToken (src/auth/oauth.ts lines 49-81).  The
randomly generated 12-byte initialization vector is passed in explicitly;
the function serializes the token, encrypts under the normalized key, and
base64-encodes the vector prepended to the ciphertext. -/
def encryptToken (P : CryptoPrims) (token : OAuthToken) (encryptionKey : String)
    (iv : List Nat) : String :=
  let data := P.serializeToken token
  let keyMaterial := P.keyBytes (normalizeKey encryptionKey)
  let encrypted := P.aesGcmEncrypt keyMaterial iv data
  P.btoaFn (iv ++ encrypted)

/-- Embedding of decryptToken (src/auth/oauth.ts lines 86-117): base64
decode, split off the first 12 bytes as the vector, decrypt the rest
under the normalized key, deserialize. -/
def decryptToken (P : CryptoPrims) (encryptedData : String)
    (encryptionKey : String) : Option OAuthToken :=
  match P.atobFn encryptedData with
  | none => none
  | some combined =>
    let iv := combined.take 12
    let encrypted := combined.drop 12
    let keyMaterial := P.keyBytes (normalizeKey encryptionKey)
    match P.aesGcmDecrypt keyMaterial iv encrypted with
    | none => none
    | some decrypted => P.deserializeToken decrypted

/-- Storage key for a user's token: TOKEN_KEY_PREFIX + userId. -/
def tokenKey (userId : String) : String := "oauth_token:" ++ userId

/-- Storage key for a state nonce: STATE_KEY_PREFIX + state. -/
def stateKey (state : String) : String := "oauth_state:" ++ state

/-- Encryption key resolution used at every encryption/decryption site:
env.COOKIE_ENCRYPTION_KEY or the hard-coded fallback. -/
def resolveEncKey (env : Env) : String :=
  if env.COOKIE_ENCRYPTION_KEY = "" then "default-key-change-me"
  else env.COOKIE_ENCRYPTION_KEY

/-- Embedding of getStoredToken (src/auth/oauth.ts lines 366-384): read
the encrypted blob for the user key, decrypt it, and hand back only the
raw access token; any decryption failure is swallowed and reported as no
token. -/
def getStoredToken (P : CryptoPrims) (store : Store) (env : Env)
    (userId : String := "default") : Option String :=
  match kvGet store (tokenKey userId) with
  | none => none
  | some encryptedToken =>
    match decryptToken P encryptedToken (resolveEncKey env) with
    | none => none
    | some token => some token.access_token

/-- Embedding of revokeToken (src/auth/oauth.ts lines 400-405). -/
def revokeToken (store : Store) (userId : String := "default") : Store :=
  kvDelete store (tokenKey userId)

/-- Response returned by handleLogout. -/
structure LogoutResponse where
  success : Bool
  message : String
deriving DecidableEq, Repr

/-- Embedding of handleLogout (src/auth/oauth.ts lines 431-446): revoke
the default-key token and report success unconditionally. -/
def handleLogout (store : Store) : LogoutResponse × Store :=
  ({ success := true, message := "Token revoked successfully" }, revokeToken store)

/-- Outcome of the outbound code-for-token exchange in handleCallback,
passed in as a parameter: the upstream either rejects the exchange or
yields an access token plus the result of the follow-up user-info fetch
(none when that fetch failed; some none when it succeeded but carried a
falsy user id; some (some uid) otherwise). -/
inductive ExchangeOutcome where
  | failure (details : String)
  | success (accessTok : String) (userInfo : Option (Option Nat))
deriving DecidableEq, Repr

/-- Result classification of handleCallback, mirroring the response
branches in src/auth/oauth.ts lines 171-361. -/
inductive CbResult where
  | oauthError (msg : String)
  | invalidRequest
  | invalidState
  | configError
  | exchangeFailed (details : String)
  | success (userId : String)
deriving DecidableEq, Repr

/-- Embedding of handleCallback (src/auth/oauth.ts lines 171-361).  The
return value is the response classification, the final KV store, and the
number of code-for-token exchange calls performed.  Query parameters
(code, state, error) are optional strings; now is Date.now() and iv the
random vector drawn inside encryptToken. -/
def handleCallback (P : CryptoPrims) (store : Store)
    (code state errParam : Option String) (env : Env)
    (ex : ExchangeOutcome) (now : Nat) (iv : List Nat) :
    CbResult × Store × Nat :=
  if jsTruthyStr errParam then
    (.oauthError (errParam.getD ""), store, 0)
  else if ¬ jsTruthyStr code ∨ ¬ jsTruthyStr state then
    (.invalidRequest, store, 0)
  else
    let s := state.getD ""
    match kvGet store (stateKey s) with
    | none => (.invalidState, store, 0)
    | some _ =>
      let store1 := kvDelete store (stateKey s)
      if env.CLICKUP_CLIENT_ID = "" ∨ env.CLICKUP_CLIENT_SECRET = "" then
        (.configError, store1, 0)
      else
        match ex with
        | .failure details => (.exchangeFailed details, store1, 1)
        | .success accessTok userInfo =>
          let userId :=
            match userInfo with
            | none => "default"
            | some none => "default"
            | some (some uid) => toString uid
          let token : OAuthToken :=
            { access_token := accessTok, token_type := "Bearer", created_at := now }
          let encryptedToken := encryptToken P token (resolveEncKey env) iv
          let store2 := kvPut store1 (tokenKey userId) encryptedToken
          let store3 := kvPut store2 (tokenKey "default") encryptedToken
          (.success userId, store3, 1)

/-- Process-wide constants (CLICKUP_CONFIG in src/config.ts). -/
def CONFIG_TEAM_ID : String := "8472392"

/-- Default list identifier from src/config.ts. -/
def CONFIG_LIST_ID : String := "176135389"

/-- Upstream API base URL from src/config.ts. -/
def CONFIG_API_URL : String := "https://api.clickup.com/api/v2"

/-- JSON-ish value carried in an outgoing request body. -/
inductive JVal where
  | s (v : String)
  | n (v : Int)
  | b (v : Bool)
  | sl (v : List String)
deriving DecidableEq, Repr

/-- One outbound HTTP request as built by a client function: method, URL,
the Authorization header value, and the JSON body rendered as a field
list (empty for GET requests). -/
structure HttpRequest where
  method : String
  url : String
  authorization : String
  bodyFields : List (String × JVal)
deriving DecidableEq, Repr

/-- Upstream HTTP response handed to a client function: ok mirrors
response.ok, status and errText feed the thrown error message on
non-2xx. -/
structure UpstreamStatus where
  ok : Bool
  status : Nat
  errText : String
deriving DecidableEq, Repr

/-- The thrown message for a non-2xx upstream response, identical in
every client function. -/
def apiErrorMsg (u : UpstreamStatus) : String :=
  "ClickUp API error: " ++ toString u.status ++ " " ++ u.errText

/-- One task of the upstream list-page JSON, restricted to the fields the
adapter reads.  Optional subobjects appear as Option; an assignee's
username may be falsy, in which case the email is used. -/
structure UpstreamAssignee where
  username : String
  email : String
deriving DecidableEq, Repr

/-- Upstream task record, as read by listTasks. -/
structure UpstreamTask where
  id : String
  name : String
  status : Option String
  priority : Option String
  due_date : Option String
  assignees : Option (List UpstreamAssignee)
deriving DecidableEq, Repr

/-- Trimmed task produced by listTasks (the map at src/tools/tasks.ts
lines 104-111). -/
structure TrimmedTask where
  id : String
  name : String
  status : Option String
  priority : Option String
  due_date : Option String
  assignees : Option (List String)
deriving DecidableEq, Repr

/-- Result object of listTasks: upstream page length, returned count and
the trimmed task list. -/
structure ListTasksResult where
  total : Nat
  returned : Nat
  tasks : List TrimmedTask
deriving DecidableEq, Repr

/-- Arguments of list_tasks after listTasksSchema.parse: the schema
(src/tools/tasks.ts lines 5-15) fills the defaults archived=false,
page=0, limit=20 when the caller omits them, so every field is concrete
here except the genuinely optional ones.  Numbers are modelled as
integers. -/
structure ListTasksArgs where
  list_id : Option String
  archived : Bool
  page : Int
  limit : Int
  order_by : Option String
  reverse : Option Bool
  subtasks : Bool
  statuses : Option (List String)
  assignees : Option (List String)
deriving DecidableEq, Repr

/-- JavaScript Array.prototype.slice(0, e): a nonnegative end index takes
the first e elements, a negative end index counts from the end of the
array (clamped at zero). -/
def jsSliceTo {α : Type} (l : List α) (e : Int) : List α :=
  if 0 ≤ e then l.take e.toNat
  else l.take (((l.length : Int) + e).toNat)

/-- Trimming of one upstream task (src/tools/tasks.ts lines 104-111);
an assignee display name is the username unless it is falsy, then the
email. -/
def trimTask (t : UpstreamTask) : TrimmedTask :=
  { id := t.id
    name := t.name
    status := t.status
    priority := t.priority
    due_date := t.due_date
    assignees := t.assignees.map (fun l =>
      l.map (fun a => if a.username = "" then a.email else a.username)) }

/-- Response shaping of listTasks (src/tools/tasks.ts lines 100-117):
effective limit is Math.min(args.limit or 20, 100) where a falsy
(zero) limit falls back to 20; the page is sliced to that limit and
trimmed; total is the upstream page length. -/
def listTasksShape (tasksPage : Option (List UpstreamTask)) (limit : Int) :
    ListTasksResult :=
  let page := tasksPage.getD []
  let lim := min (if limit = 0 then 20 else limit) 100
  let tasks := (jsSliceTo page lim).map trimTask
  { total := page.length
    returned := tasks.length
    tasks := tasks }

/-- Embedding of listTasks (src/tools/tasks.ts lines 74-118): one GET
request with the bearer credential; a non-2xx response throws, otherwise
the page is shaped.  The upstream page accompanies the status as the
parsed response body (none when the JSON has no tasks field). -/
def listTasks (args : ListTasksArgs) (apiToken : String)
    (up : UpstreamStatus) (tasksPage : Option (List UpstreamTask)) :
    List HttpRequest × Except String ListTasksResult :=
  let listId := (args.list_id.getD "")
  let listId := if listId = "" then CONFIG_LIST_ID else listId
  let req : HttpRequest :=
    { method := "GET"
      url := CONFIG_API_URL ++ "/list/" ++ listId ++ "/task"
      authorization := apiToken
      bodyFields := [] }
  if ¬ up.ok then ([req], .error (apiErrorMsg up))
  else ([req], .ok (listTasksShape tasksPage args.limit))

/-- Raw value supplied for set_custom_field before validation.  The
first four constructors are the members of the zod union in
setCustomFieldSchema (src/tools/custom-fields.ts lines 9-14); outsideUnion
stands for any other JSON value (null, object, mixed array, ...). -/
inductive RawValue where
  | s (v : String)
  | n (v : Int)
  | b (v : Bool)
  | sl (v : List String)
  | outsideUnion
deriving DecidableEq, Repr

/-- Arguments of set_custom_field before validation. -/
structure SetCustomFieldArgs where
  task_id : String
  field_id : String
  value : RawValue
deriving DecidableEq, Repr

/-- Embedding of setCustomFieldSchema.parse: task_id and field_id are
strings by construction; the value must lie in the zod union
string | number | boolean | string[], otherwise parsing throws. -/
def setCustomFieldParse (args : SetCustomFieldArgs) :
    Except String SetCustomFieldArgs :=
  match args.value with
  | .outsideUnion => .error "Invalid arguments: value"
  | _ => .ok args

/-- Rendering of a validated custom-field value into the request body. -/
def rawValueToJVal : RawValue → JVal
  | .s v => .s v
  | .n v => .n v
  | .b v => .b v
  | .sl v => .sl v
  | .outsideUnion => .s ""

/-- Embedding of setCustomField (src/tools/custom-fields.ts lines 74-92):
one POST carrying body value: args.value; non-2xx throws, otherwise
the upstream JSON (opaque here) is returned. -/
def setCustomField (args : SetCustomFieldArgs) (apiToken : String)
    (up : UpstreamStatus) (upstreamJson : String) :
    List HttpRequest × Except String String :=
  let req : HttpRequest :=
    { method := "POST"
      url := CONFIG_API_URL ++ "/task/" ++ args.task_id ++ "/field/" ++ args.field_id
      authorization := apiToken
      bodyFields := [("value", rawValueToJVal args.value)] }
  if ¬ up.ok then ([req], .error (apiErrorMsg up))
  else ([req], .ok upstreamJson)

/-- Arguments of create_doc after createDocSchema.parse
(src/tools/docs.ts lines 5-10): workspace_id is defaulted by the schema,
content and parent stay optional. -/
structure CreateDocArgs where
  workspace_id : String
  name : String
  content : Option String
  parent : Option String
deriving DecidableEq, Repr

/-- Embedding of createDoc (src/tools/docs.ts lines 41-63): one POST to
the workspace doc endpoint whose body is built as JSON.stringify of an
object holding only the name field. -/
def createDoc (args : CreateDocArgs) (apiToken : String)
    (up : UpstreamStatus) (upstreamJson : String) :
    List HttpRequest × Except String String :=
  let workspaceId := if args.workspace_id = "" then CONFIG_TEAM_ID else args.workspace_id
  let req : HttpRequest :=
    { method := "POST"
      url := CONFIG_API_URL ++ "/workspace/" ++ workspaceId ++ "/doc"
      authorization := apiToken
      bodyFields := [("name", .s args.name)] }
  if ¬ up.ok then ([req], .error (apiErrorMsg up))
  else ([req], .ok upstreamJson)

/-- Text response handed back by a tool handler to the MCP layer. -/
structure ToolResponse where
  text : String
  isError : Bool
deriving DecidableEq, Repr

/-- Credential resolution of both dispatcher variants (getToken in the
ClickUpMCP init, the token constant in MyMCP.init): the statically
configured token or the empty string. -/
def getToken (env : Env) : String :=
  env.CLICKUP_API_TOKEN.getD ""

/-- Generic tool handler of the ClickUpMCP dispatcher (the registration
loops in its init): resolve the static credential, refuse with an
error-flagged response when it is empty, otherwise parse the arguments
and run the client function; any thrown message from either step is
caught and wrapped as an error-flagged response.  The parse outcome and
the client function are parameters, one instantiation per registered
tool; the client function also reports the requests it issued. -/
def clickupHandler {PA : Type} (env : Env) (parsed : Except String PA)
    (call : PA → String → List HttpRequest × Except String String) :
    ToolResponse × List HttpRequest :=
  let token := getToken env
  if token = "" then
    ({ text := "Error: No ClickUp API token configured", isError := true }, [])
  else
    match parsed with
    | .error m => ({ text := "Error: " ++ m, isError := true }, [])
    | .ok pa =>
      match call pa token with
      | (reqs, .ok body) => ({ text := body, isError := false }, reqs)
      | (reqs, .error m) => ({ text := "Error: " ++ m, isError := true }, reqs)

/-- Generic tool handler of the MyMCP dispatcher in src/index.ts: same
try/catch wrapping, but with no missing-credential guard - the client
function is invoked with whatever getToken returned, including the empty
string. -/
def myMCPHandler {PA : Type} (env : Env) (parsed : Except String PA)
    (call : PA → String → List HttpRequest × Except String String) :
    ToolResponse × List HttpRequest :=
  let token := getToken env
  match parsed with
  | .error m => ({ text := "Error: " ++ m, isError := true }, [])
  | .ok pa =>
    match call pa token with
    | (reqs, .ok body) => ({ text := body, isError := false }, reqs)
    | (reqs, .error m) => ({ text := "Error: " ++ m, isError := true }, reqs)

/-- Serialization of a list-tasks result for the success payload of a
handler (stands in for JSON.stringify(result, null, 2); only used to
plug listTasks into the generic handlers). -/
def listTasksCall (up : UpstreamStatus)
    (tasksPage : Option (List UpstreamTask)) :
    ListTasksArgs → String → List HttpRequest × Except String String :=
  fun a tok =>
    match listTasks a tok up tasksPage with
    | (reqs, .ok r) => (reqs, .ok (toString (repr r)))
    | (reqs, .error m) => (reqs, .error m)

/-- Fuelled helper computing little-endian base-256 digits; the fuel is
always at least the number being decomposed, so the exhausted branch is
unreachable. -/
def natDigitsAux (fuel n : Nat) : List Nat :=
  match n, fuel with
  | 0, _ => []
  | _ + 1, 0 => []
  | n + 1, fuel + 1 => (n + 1) % 256 :: natDigitsAux fuel ((n + 1) / 256)

/-- Little-endian base-256 digits of a natural number (no digits for
zero). -/
def natDigits (n : Nat) : List Nat := natDigitsAux n n

/-- Encoding of one natural number as characters: its base-256 digits
(each below 256, hence a valid code point) followed by the code point 256
as terminator. -/
def encNatChars (n : Nat) : List Char :=
  (natDigits n).map Char.ofNat ++ [Char.ofNat 256]

/-- Decoder matching encNatChars: reads digit characters up to the
terminator and returns the decoded number with the remaining input. -/
def decOne : List Char → Option (Nat × List Char)
  | [] => none
  | c :: cs =>
    if c.toNat = 256 then some (0, cs)
    else
      match decOne cs with
      | none => none
      | some (n, r) => some (c.toNat + 256 * n, r)

/-- Fuelled decoder for a whole sequence of encNatChars blocks. -/
def decAll (fuel : Nat) (l : List Char) : Option (List Nat) :=
  match l with
  | [] => some []
  | c :: cs =>
    match fuel with
    | 0 => none
    | fuel' + 1 =>
      match decOne (c :: cs) with
      | none => none
      | some (n, r) =>
        match decAll fuel' r with
        | none => none
        | some ns => some (n :: ns)

/-- Reference stand-in for btoa: injective encoding of a byte/number list
into a string. -/
def refBtoa (l : List Nat) : String :=
  String.mk (l.flatMap encNatChars)

/-- Reference stand-in for atob, the left inverse of refBtoa. -/
def refAtob (s : String) : Option (List Nat) :=
  decAll s.data.length s.data

/-- Reference stand-in for JSON.stringify plus TextEncoder on a token
record: length-prefixed code points of both string fields followed by the
timestamp. -/
def refSerializeToken (t : OAuthToken) : List Nat :=
  t.access_token.data.length :: (t.access_token.data.map Char.toNat ++
    (t.token_type.data.length :: (t.token_type.data.map Char.toNat ++
      [t.created_at])))

/-- Reference stand-in for TextDecoder plus JSON.parse on a token
record. -/
def refDeserializeToken (l : List Nat) : Option OAuthToken :=
  match l with
  | [] => none
  | n :: rest =>
    let s1 := rest.take n
    match rest.drop n with
    | [] => none
    | m :: rest2 =>
      let s2 := rest2.take m
      match rest2.drop m with
      | [c] => some { access_token := String.mk (s1.map Char.ofNat)
                      token_type := String.mk (s2.map Char.ofNat)
                      created_at := c }
      | _ => none

theorem toNat_ofNat_small (n : Nat) (h : n < 0xd800) : (Char.ofNat n).toNat = n := by
  have hv : n < 55296 ∨ 57343 < n ∧ n < 1114112 := Or.inl h
  simp only [Char.ofNat, dif_pos hv]
  simp [Char.ofNatAux, Char.toNat, UInt32.toNat, BitVec.toNat_ofNatLt]

theorem natDigitsAux_congr (n : Nat) : ∀ f1 f2 : Nat, n ≤ f1 → n ≤ f2 →
    natDigitsAux f1 n = natDigitsAux f2 n := by
  induction n using Nat.strong_induction_on with
  | _ n ih =>
    intro f1 f2 h1 h2
    match n, f1, f2 with
    | 0, _, _ => simp [natDigitsAux]
    | m + 1, 0, _ => omega
    | m + 1, _ + 1, 0 => omega
    | m + 1, g1 + 1, g2 + 1 =>
      simp only [natDigitsAux]
      have hlt : (m + 1) / 256 < m + 1 := Nat.div_lt_self (Nat.succ_pos m) (by omega)
      exact congrArg _ (ih ((m + 1) / 256) hlt g1 g2 (by omega) (by omega))

theorem natDigits_succ (m : Nat) :
    natDigits (m + 1) = (m + 1) % 256 :: natDigits ((m + 1) / 256) := by
  have hlt : (m + 1) / 256 < m + 1 := Nat.div_lt_self (Nat.succ_pos m) (by omega)
  show natDigitsAux (m + 1) (m + 1) = _
  simp only [natDigitsAux]
  exact congrArg _ (natDigitsAux_congr ((m + 1) / 256) m ((m + 1) / 256)
    (by omega) (Nat.le_refl _))

theorem decOne_encNatChars (n : Nat) : ∀ rest, decOne (encNatChars n ++ rest) = some (n, rest) := by
  induction n using Nat.strong_induction_on with
  | _ n ih =>
    intro rest
    match n with
    | 0 =>
      simp [encNatChars, natDigits, natDigitsAux, decOne, toNat_ofNat_small 256 (by omega)]
    | m + 1 =>
      have hd : ((m + 1) % 256) < 0xd800 := by
        have := Nat.mod_lt (m + 1) (y := 256) (by omega)
        omega
      have hne : ¬ ((m + 1) % 256 = 256) := by
        have := Nat.mod_lt (m + 1) (y := 256) (by omega)
        omega
      have hrec := ih ((m + 1) / 256) (Nat.div_lt_self (Nat.succ_pos m) (by omega)) rest
      have hshape : encNatChars (m + 1) ++ rest =
          Char.ofNat ((m + 1) % 256) :: (encNatChars ((m + 1) / 256) ++ rest) := by
        simp [encNatChars, natDigits_succ]
      rw [hshape, decOne, toNat_ofNat_small _ hd, if_neg hne, hrec]
      simp [Nat.mod_add_div]

theorem decAll_flatMap (ns : List Nat) :
    ∀ fuel, (ns.flatMap encNatChars).length ≤ fuel →
      decAll fuel (ns.flatMap encNatChars) = some ns := by
  induction ns with
  | nil => intro fuel _; simp [decAll]
  | cons n ns ih =>
    intro fuel h
    have hflat : (n :: ns).flatMap encNatChars = encNatChars n ++ ns.flatMap encNatChars :=
      List.flatMap_cons ..
    rw [hflat] at h ⊢
    have h1 : 1 ≤ (encNatChars n).length := by
      simp [encNatChars]
    cases hE : encNatChars n ++ ns.flatMap encNatChars with
    | nil =>
      exfalso
      have hlen := congrArg List.length hE
      rw [List.length_append, List.length_nil] at hlen
      omega
    | cons c cs =>
      have hlen := congrArg List.length hE
      rw [List.length_append, List.length_cons] at hlen
      cases fuel with
      | zero =>
        exfalso
        rw [List.length_append] at h
        omega
      | succ fuel' =>
        have hdec : decOne (c :: cs) = some (n, ns.flatMap encNatChars) := by
          rw [← hE]; exact decOne_encNatChars n _
        have hrest : (ns.flatMap encNatChars).length ≤ fuel' := by
          rw [List.length_append] at h
          omega
        simp only [decAll]
        rw [hdec]
        simp only [ih fuel' hrest]

theorem refBtoa_atob (bs : List Nat) : refAtob (refBtoa bs) = some bs := by
  have : (String.mk (bs.flatMap encNatChars)).data = bs.flatMap encNatChars := rfl
  rw [refAtob, refBtoa, this]
  exact decAll_flatMap bs _ (Nat.le_refl _)

theorem refDeserializeToken_eq (d1 d2 : List Char) (c : Nat) :
    refDeserializeToken (d1.length :: (d1.map Char.toNat ++
        (d2.length :: (d2.map Char.toNat ++ [c])))) =
      some { access_token := String.mk d1, token_type := String.mk d2,
             created_at := c } := by
  have hmap : ∀ l : List Char, (l.map Char.toNat).map Char.ofNat = l := by
    intro l
    rw [List.map_map]
    have : (Char.ofNat ∘ Char.toNat) = id := by
      funext x; exact Char.ofNat_toNat x
    rw [this, List.map_id]
  have h1 : (d1.map Char.toNat).length = d1.length := List.length_map ..
  have h2 : (d2.map Char.toNat).length = d2.length := List.length_map ..
  have t1 : (d1.map Char.toNat ++ (d2.length :: (d2.map Char.toNat ++ [c]))).take d1.length
      = d1.map Char.toNat := by
    rw [← h1]; exact List.take_left ..
  have t2 : (d1.map Char.toNat ++ (d2.length :: (d2.map Char.toNat ++ [c]))).drop d1.length
      = d2.length :: (d2.map Char.toNat ++ [c]) := by
    rw [← h1]; exact List.drop_left ..
  have t3 : (d2.map Char.toNat ++ [c]).take d2.length = d2.map Char.toNat := by
    rw [← h2]; exact List.take_left ..
  have t4 : (d2.map Char.toNat ++ [c]).drop d2.length = [c] := by
    rw [← h2]; exact List.drop_left ..
  simp only [refDeserializeToken, t1, t2, t3, t4, hmap]

theorem refSerialize_rt (t : OAuthToken) :
    refDeserializeToken (refSerializeToken t) = some t := by
  obtain ⟨⟨d1⟩, ⟨d2⟩, c⟩ := t
  exact refDeserializeToken_eq d1 d2 c

/-- Executable instance of the platform primitives: identity cipher,
the concrete injective byte-sequence serializers above, and TextEncoder
modelled as code points.  Used to evaluate every theorem on concrete
inputs. -/
def refPrims : CryptoPrims where
  serializeToken := refSerializeToken
  deserializeToken := refDeserializeToken
  serialize_rt := refSerialize_rt
  aesGcmEncrypt := fun _ _ d => d
  aesGcmDecrypt := fun _ _ d => some d
  aes_rt := fun _ _ _ => rfl
  btoaFn := refBtoa
  atobFn := refAtob
  base64_rt := refBtoa_atob
  keyBytes := fun s => s.data.map Char.toNat

/-- Upstream status for a successful call. -/
def upOk : UpstreamStatus := { ok := true, status := 200, errText := "" }

/-- Parsed list_tasks arguments with every default in place. -/
def argsDefault : ListTasksArgs :=
  { list_id := none, archived := false, page := 0, limit := 20, order_by := none,
    reverse := none, subtasks := false, statuses := none, assignees := none }

/-- Parsed list_tasks arguments with a caller-supplied limit of zero. -/
def argsLimit0 : ListTasksArgs :=
  { argsDefault with limit := 0 }

/-- One-task upstream page. -/
def pageOne : List UpstreamTask :=
  [{ id := "1", name := "t", status := none, priority := none, due_date := none,
     assignees := none }]

/-- Shaped result of listing the one-task page. -/
def resultOne : ListTasksResult :=
  { total := 1, returned := 1,
    tasks := [{ id := "1", name := "t", status := none, priority := none,
                due_date := none, assignees := none }] }

/-- Token record used by concrete evaluations. -/
def refTok : OAuthToken :=
  { access_token := "oauth-secret", token_type := "Bearer", created_at := 1 }

/-- One concrete 12-byte initialization vector. -/
def refIv1 : List Nat := [0, 1, 2, 3, 4, 5, 6, 7, 8, 9, 10, 11]

/-- A second, distinct 12-byte initialization vector. -/
def refIv2 : List Nat := [1, 1, 2, 3, 4, 5, 6, 7, 8, 9, 10, 11]

/-- Environment with both a static token and OAuth client credentials. -/
def envStatic : Env :=
  { CLICKUP_CLIENT_ID := "id", CLICKUP_CLIENT_SECRET := "sec",
    COOKIE_ENCRYPTION_KEY := "k", CLICKUP_API_TOKEN := some "static-token" }

/-- Environment with no credential of any kind configured. -/
def envNone : Env :=
  { CLICKUP_CLIENT_ID := "", CLICKUP_CLIENT_SECRET := "",
    COOKIE_ENCRYPTION_KEY := "", CLICKUP_API_TOKEN := none }

/-- Store holding a decryptable OAuth token under the default key. -/
def storeWithOAuth : Store :=
  kvPut [] (tokenKey "default") (encryptToken refPrims refTok "k" refIv1)

/-- The list_tasks request emitted under envStatic with default
arguments. -/
def reqC1 : HttpRequest :=
  { method := "GET", url := CONFIG_API_URL ++ "/list/" ++ CONFIG_LIST_ID ++ "/task",
    authorization := "static-token", bodyFields := [] }

/-- Specification-side field types, used only to state what the spec
means by the declared type of a custom field.  Modelled from the spec:
the adapter itself never fetches or consults the target field's type
before sending a value. -/
inductive FieldType where
  | text
  | number
  | checkbox
  | labels
deriving DecidableEq, Repr

/-- Specification-side comparator: does a value conform to the declared
field type.  Modelled from the spec sentence about outgoing field values
matching the target field's declared type; the source has no such
check. -/
def specValueMatchesDeclaredType : FieldType → RawValue → Bool
  | .text, .s _ => true
  | .number, .n _ => true
  | .checkbox, .b _ => true
  | .labels, .sl _ => true
  | _, _ => false

/-- Custom-field arguments whose value is a string aimed at a
number-typed field. -/
def mismatchArgs : SetCustomFieldArgs :=
  { task_id := "t1", field_id := "f1", value := .s "hello" }

/-- Create-doc arguments supplying both optional fields. -/
def docArgs : CreateDocArgs :=
  { workspace_id := "8472392", name := "Spec", content := some "hello",
    parent := some "123" }

theorem kvGet_kvDelete (s : Store) (k k' : String) :
    kvGet (kvDelete s k) k' = if k' = k then none else kvGet s k' := by
  induction s with
  | nil => simp [kvGet, kvDelete]
  | cons a t ih =>
    by_cases hak : a.1 = k
    · have hb : (a.1 != k) = false := by simp [bne, hak]
      have hfilter : kvDelete (a :: t) k = kvDelete t k := by
        simp [kvDelete, List.filter_cons, hb]
      rw [hfilter, ih]
      by_cases hk : k' = k
      · simp [hk]
      · have ha' : (a.1 == k') = false := by
          rw [beq_eq_false_iff_ne]
          rw [hak]
          exact fun h => hk h.symm
        rw [if_neg hk, if_neg hk]
        simp only [kvGet, List.find?_cons, ha']
    · have hb : (a.1 != k) = true := by simp [bne, hak]
      have hfilter : kvDelete (a :: t) k = a :: kvDelete t k := by
        simp [kvDelete, List.filter_cons, hb]
      rw [hfilter]
      by_cases ha' : a.1 = k'
      · have hbeq : (a.1 == k') = true := by simp [ha']
        have hk : ¬ k' = k := fun h => hak (ha'.symm ▸ h ▸ rfl)
        rw [if_neg hk]
        simp only [kvGet, List.find?_cons, hbeq]
      · have hbeq : (a.1 == k') = false := by simp [ha']
        simp only [kvGet, List.find?_cons, hbeq]
        exact ih

theorem kvGet_kvPut (s : Store) (k v : String) (k' : String) :
    kvGet (kvPut s k v) k' = if k' = k then some v else kvGet s k' := by
  by_cases hk : k' = k
  · subst hk
    simp [kvGet, kvPut, List.find?]
  · have hne : (k == k') = false := by
      simp [beq_iff_eq]
      exact fun h => hk h.symm
    simp only [kvGet, kvPut, List.find?, hne, if_neg hk]
    have := kvGet_kvDelete s k k'
    rw [if_neg hk] at this
    exact this

theorem tokenKey_ne_stateKey (u s : String) : tokenKey u ≠ stateKey s := by
  intro h
  have hd := congrArg (fun x => x.data[6]?) h
  simp only [tokenKey, stateKey, String.data_append] at hd
  have e1 : ("oauth_token:".data ++ u.data)[6]? = some 't' := by
    rw [List.getElem?_append_left (by decide)]
    rfl
  have e2 : ("oauth_state:".data ++ s.data)[6]? = some 's' := by
    rw [List.getElem?_append_left (by decide)]
    rfl
  rw [e1, e2] at hd
  simp at hd

theorem tokenKey_inj (u v : String) (h : tokenKey u = tokenKey v) : u = v := by
  have hd := congrArg String.data h
  simp only [tokenKey, String.data_append] at hd
  exact String.ext (List.append_cancel_left hd)

theorem decryptToken_encryptToken (P : CryptoPrims) (t : OAuthToken) (k1 k2 : String)
    (iv : List Nat) (hiv : iv.length = 12) (hk : normalizeKey k1 = normalizeKey k2) :
    decryptToken P (encryptToken P t k1 iv) k2 = some t := by
  have htake : (iv ++ P.aesGcmEncrypt (P.keyBytes (normalizeKey k1)) iv
      (P.serializeToken t)).take 12 = iv := by
    rw [← hiv]; exact List.take_left ..
  have hdrop : (iv ++ P.aesGcmEncrypt (P.keyBytes (normalizeKey k1)) iv
      (P.serializeToken t)).drop 12 =
      P.aesGcmEncrypt (P.keyBytes (normalizeKey k1)) iv (P.serializeToken t) := by
    rw [← hiv]; exact List.drop_left ..
  simp only [encryptToken, decryptToken, P.base64_rt, htake, hdrop, ← hk,
    P.aes_rt, P.serialize_rt]

theorem encryptToken_iv_ne (P : CryptoPrims) (t : OAuthToken) (k : String)
    (iv1 iv2 : List Nat) (h1 : iv1.length = 12) (h2 : iv2.length = 12)
    (hne : iv1 ≠ iv2) :
    encryptToken P t k iv1 ≠ encryptToken P t k iv2 := by
  intro he
  apply hne
  have hsome := congrArg P.atobFn he
  simp only [encryptToken, P.base64_rt] at hsome
  have hl := Option.some.inj hsome
  have htk := congrArg (List.take 12) hl
  have e1 : (iv1 ++ P.aesGcmEncrypt (P.keyBytes (normalizeKey k)) iv1
      (P.serializeToken t)).take 12 = iv1 := by
    rw [← h1]; exact List.take_left ..
  have e2 : (iv2 ++ P.aesGcmEncrypt (P.keyBytes (normalizeKey k)) iv2
      (P.serializeToken t)).take 12 = iv2 := by
    rw [← h2]; exact List.take_left ..
  rw [e1, e2] at htk
  exact htk

/-- The empty KV store. -/
def emptyStore : Store := []

/-- Store used by the logout witness, holding another user's token, the
default token and a state record. -/
def storeLogoutW : Store :=
  [(tokenKey "alice", "enc-alice"), (tokenKey "default", "enc-default"),
   (stateKey "x", "state-json")]

theorem kvDelete_idem (s : Store) (k : String) :
    kvDelete (kvDelete s k) k = kvDelete s k := by
  simp [kvDelete, List.filter_filter]

/-- C6: encrypt-then-decrypt of a token record under the same key returns
the original access token, token type and creation timestamp unchanged,
and two encryptions of the same token under distinct 12-byte
initialization vectors produce different ciphertexts.  Stated for every
platform instance satisfying the standard AES-GCM/serialization/base64
contracts. -/
theorem claim_C6_token_crypto (P : CryptoPrims) (t : OAuthToken) (key : String)
    (iv1 iv2 : List Nat) (h1 : iv1.length = 12) (h2 : iv2.length = 12) :
    decryptToken P (encryptToken P t key iv1) key = some t ∧
    (iv1 ≠ iv2 → encryptToken P t key iv1 ≠ encryptToken P t key iv2) :=
  ⟨decryptToken_encryptToken P t key key iv1 h1 rfl,
   fun hne => encryptToken_iv_ne P t key iv1 iv2 h1 h2 hne⟩

theorem claim_C6_witness :
    (refIv1.length = 12 ∧ refIv2.length = 12 ∧ refIv1 ≠ refIv2) ∧
    (decryptToken refPrims (encryptToken refPrims refTok "k" refIv1) "k" = some refTok ∧
     (refIv1 ≠ refIv2 →
       encryptToken refPrims refTok "k" refIv1 ≠ encryptToken refPrims refTok "k" refIv2)) :=
  ⟨by decide, claim_C6_token_crypto refPrims refTok "k" refIv1 refIv2 (by decide) (by decide)⟩

/-- C10: both encryption sites normalize the key by right-padding with
the character 0 to 32 characters and truncating to 32 (normalizeKey), so
any two key strings with equal normalized forms are interchangeable: a
token encrypted under one decrypts under the other to the original
record, in both directions. -/
theorem claim_C10_key_normalization (P : CryptoPrims) (t : OAuthToken) (k1 k2 : String)
    (iv : List Nat) (hiv : iv.length = 12)
    (hk : normalizeKey k1 = normalizeKey k2) :
    decryptToken P (encryptToken P t k1 iv) k2 = some t ∧
    decryptToken P (encryptToken P t k2 iv) k1 = some t :=
  ⟨decryptToken_encryptToken P t k1 k2 iv hiv hk,
   decryptToken_encryptToken P t k2 k1 iv hiv hk.symm⟩

theorem claim_C10_witness :
    (refIv1.length = 12 ∧
     normalizeKey "aaaaaaaaaaaaaaaaaaaaaaaaaaaaaaaaXYZ" =
       normalizeKey "aaaaaaaaaaaaaaaaaaaaaaaaaaaaaaaaQQ") ∧
    (decryptToken refPrims
        (encryptToken refPrims refTok "aaaaaaaaaaaaaaaaaaaaaaaaaaaaaaaaXYZ" refIv1)
        "aaaaaaaaaaaaaaaaaaaaaaaaaaaaaaaaQQ" = some refTok ∧
     decryptToken refPrims
        (encryptToken refPrims refTok "aaaaaaaaaaaaaaaaaaaaaaaaaaaaaaaaQQ" refIv1)
        "aaaaaaaaaaaaaaaaaaaaaaaaaaaaaaaaXYZ" = some refTok) :=
  ⟨by decide,
   claim_C10_key_normalization refPrims refTok
     "aaaaaaaaaaaaaaaaaaaaaaaaaaaaaaaaXYZ" "aaaaaaaaaaaaaaaaaaaaaaaaaaaaaaaaQQ"
     refIv1 (by decide) (by decide)⟩

/-- C9: logout deletes only the token stored under the fixed default key
and always reports success: tokens of any other user key and all state
records are untouched, and logout is idempotent on the store. -/
theorem claim_C9_logout_frame (store : Store) (u s : String) (hu : u ≠ "default") :
    (handleLogout store).1.success = true ∧
    kvGet (handleLogout store).2 (tokenKey u) = kvGet store (tokenKey u) ∧
    kvGet (handleLogout store).2 (stateKey s) = kvGet store (stateKey s) ∧
    (handleLogout (handleLogout store).2).2 = (handleLogout store).2 := by
  refine ⟨rfl, ?_, ?_, ?_⟩
  · have hne : tokenKey u ≠ tokenKey "default" := fun h => hu (tokenKey_inj _ _ h)
    have h := kvGet_kvDelete store (tokenKey "default") (tokenKey u)
    rw [if_neg hne] at h
    exact h
  · have hne : stateKey s ≠ tokenKey "default" :=
      fun h => (tokenKey_ne_stateKey "default" s) h.symm
    have h := kvGet_kvDelete store (tokenKey "default") (stateKey s)
    rw [if_neg hne] at h
    exact h
  · exact kvDelete_idem store (tokenKey "default")

theorem claim_C9_witness :
    ("alice" ≠ "default") ∧
    ((handleLogout storeLogoutW).1.success = true ∧
     kvGet (handleLogout storeLogoutW).2 (tokenKey "alice") =
       kvGet storeLogoutW (tokenKey "alice") ∧
     kvGet (handleLogout storeLogoutW).2 (stateKey "x") =
       kvGet storeLogoutW (stateKey "x") ∧
     (handleLogout (handleLogout storeLogoutW).2).2 = (handleLogout storeLogoutW).2) :=
  ⟨by decide, claim_C9_logout_frame storeLogoutW "alice" "x" (by decide)⟩

/-- C7: the create-document operation does not pass its optional
arguments through: even when the caller supplies initial content and a
parent reference, the single upstream request carries a body holding
only the document name; content and parent are absent.  This contradicts
the operation's own schema and tool description, so the claim marks a
code bug, evidenced here by evaluating createDoc at a fully populated
argument record. -/
theorem claim_C7_createDoc_drops_fields :
    docArgs.content = some "hello" ∧ docArgs.parent = some "123" ∧
    (createDoc docArgs "tok" upOk "ok").1.map (fun r => r.bodyFields) =
      [[("name", JVal.s "Spec")]] ∧
    (createDoc docArgs "tok" upOk "ok").1.map
      (fun r => (r.bodyFields.lookup "content", r.bodyFields.lookup "parent")) =
      [(none, none)] := by decide

theorem listTasksCall_auth (up : UpstreamStatus) (page : Option (List UpstreamTask))
    (a : ListTasksArgs) (tok : String) :
    ∀ q ∈ ((listTasksCall up page) a tok).1, q.authorization = tok := by
  unfold listTasksCall listTasks
  by_cases hup : up.ok <;> simp [hup]

theorem setCustomField_auth (args : SetCustomFieldArgs) (tok : String)
    (up : UpstreamStatus) (uj : String) :
    ∀ q ∈ (setCustomField args tok up uj).1, q.authorization = tok := by
  unfold setCustomField
  by_cases hup : up.ok <;> simp [hup]

theorem createDoc_auth (args : CreateDocArgs) (tok : String)
    (up : UpstreamStatus) (uj : String) :
    ∀ q ∈ (createDoc args tok up uj).1, q.authorization = tok := by
  unfold createDoc
  by_cases hup : up.ok <;> simp [hup]

theorem clickupHandler_auth {PA : Type} (env : Env) (parsed : Except String PA)
    (call : PA → String → List HttpRequest × Except String String)
    (hcall : ∀ pa tok, ∀ q ∈ (call pa tok).1, q.authorization = tok) :
    ∀ r ∈ (clickupHandler env parsed call).2, r.authorization = getToken env := by
  intro r hr
  by_cases htok : getToken env = ""
  · simp [clickupHandler, htok] at hr
  · cases parsed with
    | error m => simp [clickupHandler, htok] at hr
    | ok pa =>
      apply hcall pa (getToken env)
      rcases hc : call pa (getToken env) with ⟨reqs, res⟩
      cases res <;> simpa [clickupHandler, htok, hc] using hr

theorem myMCPHandler_auth {PA : Type} (env : Env) (parsed : Except String PA)
    (call : PA → String → List HttpRequest × Except String String)
    (hcall : ∀ pa tok, ∀ q ∈ (call pa tok).1, q.authorization = tok) :
    ∀ r ∈ (myMCPHandler env parsed call).2, r.authorization = getToken env := by
  intro r hr
  cases parsed with
  | error m => simp [myMCPHandler] at hr
  | ok pa =>
    apply hcall pa (getToken env)
    rcases hc : call pa (getToken env) with ⟨reqs, res⟩
    cases res <;> simpa [myMCPHandler, hc] using hr

/-- C1 counterexample: with a decryptable stored OAuth token in the KV
store and a different statically configured token, the dispatcher sends
the upstream request with the static token - the stored OAuth token is
never consulted by tool dispatch, refuting preference of the stored
token. -/
theorem claim_C1_counterexample :
    getStoredToken refPrims storeWithOAuth envStatic = some "oauth-secret" ∧
    (clickupHandler envStatic (.ok argsDefault) (listTasksCall upOk (some []))).2.map
      (fun r => r.authorization) = ["static-token"] ∧
    "static-token" ≠ "oauth-secret" := by decide

/-- C1 (amended): for every tool invocation, in both dispatcher variants,
the bearer credential carried by every upstream request is the statically
configured token (getToken env); the stored OAuth token plays no part in
tool dispatch.  The parsed arguments and the client function range over
those of any registered tool; the hypothesis - the client function stamps
the credential it is handed on each request it issues - is discharged for
every modelled client function by listTasksCall_auth, setCustomField_auth
and createDoc_auth. -/
theorem claim_C1_static_token_only {PA : Type} (env : Env) (parsed : Except String PA)
    (call : PA → String → List HttpRequest × Except String String)
    (hcall : ∀ pa tok, ∀ q ∈ (call pa tok).1, q.authorization = tok) :
    (∀ r ∈ (clickupHandler env parsed call).2, r.authorization = getToken env) ∧
    (∀ r ∈ (myMCPHandler env parsed call).2, r.authorization = getToken env) :=
  ⟨clickupHandler_auth env parsed call hcall,
   myMCPHandler_auth env parsed call hcall⟩

theorem claim_C1_witness :
    (reqC1 ∈ (clickupHandler envStatic (.ok argsDefault) (listTasksCall upOk (some []))).2 ∧
     reqC1 ∈ (myMCPHandler envStatic (.ok argsDefault) (listTasksCall upOk (some []))).2) ∧
    (reqC1.authorization = getToken envStatic ∧
     reqC1.authorization = getToken envStatic) :=
  ⟨⟨by decide, by decide⟩,
   (claim_C1_static_token_only envStatic (.ok argsDefault) (listTasksCall upOk (some []))
      (fun a tok => listTasksCall_auth upOk (some []) a tok)).1 reqC1 (by decide),
   (claim_C1_static_token_only envStatic (.ok argsDefault) (listTasksCall upOk (some []))
      (fun a tok => listTasksCall_auth upOk (some []) a tok)).2 reqC1 (by decide)⟩

/-- C2 counterexample: with no stored OAuth token and no static token,
the MyMCP dispatcher variant in src/index.ts still attempts the upstream
call - one outbound HTTP request is issued (with an empty Authorization
value), refuting the claim for that dispatcher's registered tools. -/
theorem claim_C2_counterexample :
    getStoredToken refPrims emptyStore envNone = none ∧
    getToken envNone = "" ∧
    (myMCPHandler envNone (.ok argsDefault) (listTasksCall upOk (some []))).2.length = 1 := by
  decide

/-- C2 (amended): in the ClickUpMCP dispatcher variant every registered
tool operation checks the credential first: when the static token is
empty the handler returns the error-flagged no-token response and issues
no outbound HTTP request.  The MyMCP variant lacks this guard (see the
counterexample). -/
theorem claim_C2_no_credential_guard {PA : Type} (env : Env)
    (parsed : Except String PA)
    (call : PA → String → List HttpRequest × Except String String)
    (htok : getToken env = "") :
    clickupHandler env parsed call =
      ({ text := "Error: No ClickUp API token configured", isError := true }, []) := by
  simp [clickupHandler, htok]

theorem claim_C2_witness :
    getToken envNone = "" ∧
    clickupHandler envNone (.ok argsDefault) (listTasksCall upOk (some [])) =
      ({ text := "Error: No ClickUp API token configured", isError := true }, []) :=
  ⟨by decide,
   claim_C2_no_credential_guard envNone (.ok argsDefault) (listTasksCall upOk (some []))
     (by decide)⟩

theorem jsSliceTo_length_le {α : Type} (l : List α) (e : Int) :
    (jsSliceTo l e).length ≤ l.length := by
  unfold jsSliceTo
  by_cases h : 0 ≤ e <;> simp [h, List.length_take]

theorem jsSliceTo_length_le_of_nonneg {α : Type} (l : List α) (e : Int) (h : 0 ≤ e) :
    ((jsSliceTo l e).length : Int) ≤ e := by
  unfold jsSliceTo
  rw [if_pos h, List.length_take]
  have h1 : min e.toNat l.length ≤ e.toNat := Nat.min_le_left ..
  have h2 : (e.toNat : Int) = e := Int.toNat_of_nonneg h
  omega

/-- C3 counterexample: a caller-supplied limit of zero is falsy in
JavaScript, so the code substitutes the default 20 and returns one task
from a one-task page even though min(limit, 100) = 0; the claimed bound
returned at most min(limit, 100) fails. -/
theorem claim_C3_counterexample :
    argsLimit0.limit = 0 ∧
    (listTasks argsLimit0 "tok" upOk (some pageOne)).2 = .ok resultOne ∧
    resultOne.returned = 1 ∧
    ¬ ((1 : Int) ≤ min (0 : Int) 100) := by decide

/-- C3 (amended): for every list_tasks call whose result is produced
from an upstream page, returned never exceeds total; and for every
caller-supplied limit of at least 1, returned also never exceeds
min(limit, 100).  A limit of zero falls back to the default of 20 and a
negative limit slices from the end of the page, which is what the
counterexample exhibits. -/
theorem claim_C3_returned_bounds (args : ListTasksArgs) (tok : String)
    (up : UpstreamStatus) (page : Option (List UpstreamTask)) (r : ListTasksResult)
    (hr : (listTasks args tok up page).2 = .ok r) :
    r.returned ≤ r.total ∧
    (1 ≤ args.limit → (r.returned : Int) ≤ min args.limit 100) := by
  have hok : up.ok = true := by
    by_contra hup
    simp [listTasks, hup] at hr
  have hrr : listTasksShape page args.limit = r := by
    simpa [listTasks, hok] using hr
  subst hrr
  constructor
  · simp only [listTasksShape, List.length_map]
    exact jsSliceTo_length_le ..
  · intro hlim
    simp only [listTasksShape, List.length_map]
    have hne : ¬ (args.limit = 0) := by omega
    rw [if_neg hne]
    have hmin : (0 : Int) ≤ min args.limit 100 := by omega
    exact jsSliceTo_length_le_of_nonneg _ _ hmin

theorem claim_C3_witness :
    ((listTasks argsDefault "tok" upOk (some pageOne)).2 = .ok resultOne ∧
     1 ≤ argsDefault.limit) ∧
    (resultOne.returned ≤ resultOne.total ∧
     (1 ≤ argsDefault.limit → (resultOne.returned : Int) ≤ min argsDefault.limit 100)) :=
  ⟨⟨by decide, by decide⟩,
   claim_C3_returned_bounds argsDefault "tok" upOk (some pageOne) resultOne (by decide)⟩

/-- Custom-field arguments whose value lies outside the zod union. -/
def outsideArgs : SetCustomFieldArgs :=
  { task_id := "t1", field_id := "f1", value := .outsideUnion }

/-- Client function that always throws, used to exercise the catch-all
of the dispatchers. -/
def callBoom : Unit → String → List HttpRequest × Except String String :=
  fun _ _ => ([], .error "boom")

/-- C4 counterexample: a string value aimed at a number-typed field
passes validation (the union admits any string) and the upstream request
is sent - nothing rejects the type mismatch before the network call. -/
theorem claim_C4_counterexample :
    specValueMatchesDeclaredType .number mismatchArgs.value = false ∧
    setCustomFieldParse mismatchArgs = .ok mismatchArgs ∧
    (clickupHandler envStatic (setCustomFieldParse mismatchArgs)
      (fun a tok => setCustomField a tok upOk "ok")).2.length = 1 := by decide

/-- C4 (amended): validation of set_custom_field only enforces that the
value is a string, number, boolean or string array; agreement with the
target field's declared type is not checked locally and is left to the
upstream API.  A value outside the union is rejected before any network
call: the handler then issues no request and flags the response as an
error. -/
theorem claim_C4_value_union_only (args : SetCustomFieldArgs) (env : Env)
    (up : UpstreamStatus) (uj : String) :
    (setCustomFieldParse args = .ok args ↔ args.value ≠ .outsideUnion) ∧
    (args.value = .outsideUnion →
      (clickupHandler env (setCustomFieldParse args)
        (fun a tok => setCustomField a tok up uj)).1.isError = true ∧
      (clickupHandler env (setCustomFieldParse args)
        (fun a tok => setCustomField a tok up uj)).2 = []) := by
  constructor
  · cases hv : args.value <;> simp [setCustomFieldParse, hv]
  · intro hv
    by_cases htok : getToken env = ""
    · simp [clickupHandler, htok]
    · simp [clickupHandler, htok, setCustomFieldParse, hv]

theorem claim_C4_witness :
    ((setCustomFieldParse outsideArgs = .ok outsideArgs ↔
        outsideArgs.value ≠ .outsideUnion) ∧
     (outsideArgs.value = .outsideUnion →
       (clickupHandler envStatic (setCustomFieldParse outsideArgs)
         (fun a tok => setCustomField a tok upOk "ok")).1.isError = true ∧
       (clickupHandler envStatic (setCustomFieldParse outsideArgs)
         (fun a tok => setCustomField a tok upOk "ok")).2 = [])) ∧
    (clickupHandler envStatic (setCustomFieldParse outsideArgs)
      (fun a tok => setCustomField a tok upOk "ok")).2 = [] :=
  ⟨claim_C4_value_union_only outsideArgs envStatic upOk "ok",
   ((claim_C4_value_union_only outsideArgs envStatic upOk "ok").2 rfl).2⟩

/-- C8: every message thrown by argument validation or by the client
function is caught by the dispatcher and converted into an error-flagged
text response carrying that message, and the embedded handlers are total
functions, so no exception escapes to the caller.  For the MyMCP
dispatcher this holds for every environment, credential configured or
not (its handlers run validation and the client call regardless); for
the ClickUpMCP dispatcher it holds whenever a credential is configured -
with no credential its guard answers before validation ever runs, so no
exception arises on that path. -/
theorem claim_C8_exceptions_caught {PA : Type} (env : Env) (m m2 : String) (pa : PA)
    (parsedE parsedO : Except String PA)
    (call : PA → String → List HttpRequest × Except String String)
    (hE : parsedE = .error m) (hO : parsedO = .ok pa)
    (hcall : (call pa (getToken env)).2 = .error m2) :
    myMCPHandler env parsedE call = ({ text := "Error: " ++ m, isError := true }, []) ∧
    (myMCPHandler env parsedO call).1 = { text := "Error: " ++ m2, isError := true } ∧
    (getToken env ≠ "" →
      clickupHandler env parsedE call =
        ({ text := "Error: " ++ m, isError := true }, []) ∧
      (clickupHandler env parsedO call).1 =
        { text := "Error: " ++ m2, isError := true }) := by
  subst hE hO
  rcases hc : call pa (getToken env) with ⟨reqs, res⟩
  rw [hc] at hcall
  simp only at hcall
  subst hcall
  refine ⟨?_, ?_, fun htok => ⟨?_, ?_⟩⟩ <;>
    simp [clickupHandler, myMCPHandler, hc, *]

theorem claim_C8_witness :
    (myMCPHandler envNone (.error "bad") callBoom =
       ({ text := "Error: " ++ "bad", isError := true }, []) ∧
     (myMCPHandler envNone (.ok ()) callBoom).1 =
       { text := "Error: " ++ "boom", isError := true }) ∧
    (clickupHandler envStatic (.error "bad") callBoom =
       ({ text := "Error: " ++ "bad", isError := true }, []) ∧
     (clickupHandler envStatic (.ok ()) callBoom).1 =
       { text := "Error: " ++ "boom", isError := true }) :=
  ⟨⟨(claim_C8_exceptions_caught envNone "bad" "boom" () (.error "bad") (.ok ()) callBoom
       rfl rfl rfl).1,
    (claim_C8_exceptions_caught envNone "bad" "boom" () (.error "bad") (.ok ()) callBoom
       rfl rfl rfl).2.1⟩,
   (claim_C8_exceptions_caught envStatic "bad" "boom" () (.error "bad") (.ok ()) callBoom
      rfl rfl rfl).2.2 (by decide)⟩

theorem handleCallback_invalidState (P : CryptoPrims) (store : Store) (c s : String)
    (env : Env) (ex : ExchangeOutcome) (now : Nat) (iv : List Nat)
    (hc : c ≠ "") (hs : s ≠ "")
    (hnone : kvGet store (stateKey s) = none) :
    handleCallback P store (some c) (some s) none env ex now iv =
      (.invalidState, store, 0) := by
  have h1 : jsTruthyStr none = false := rfl
  have h2 : jsTruthyStr (some c) = true := by simp [jsTruthyStr, hc]
  have h3 : jsTruthyStr (some s) = true := by simp [jsTruthyStr, hs]
  simp only [handleCallback, h1, h2, h3, Option.getD_some, hnone]
  simp

theorem handleCallback_consumes_state (P : CryptoPrims) (store : Store) (c s : String)
    (env : Env) (ex : ExchangeOutcome) (now : Nat) (iv : List Nat) (j : String)
    (hc : c ≠ "") (hs : s ≠ "")
    (hj : kvGet store (stateKey s) = some j) :
    kvGet (handleCallback P store (some c) (some s) none env ex now iv).2.1
      (stateKey s) = none := by
  have h1 : jsTruthyStr none = false := rfl
  have h2 : jsTruthyStr (some c) = true := by simp [jsTruthyStr, hc]
  have h3 : jsTruthyStr (some s) = true := by simp [jsTruthyStr, hs]
  have hdel : kvGet (kvDelete store (stateKey s)) (stateKey s) = none := by
    have h := kvGet_kvDelete store (stateKey s) (stateKey s)
    rw [if_pos rfl] at h
    exact h
  simp only [handleCallback, h1, h2, h3, Option.getD_some, hj, Bool.false_eq_true,
    if_false, not_true, or_self]
  by_cases hcfg : env.CLICKUP_CLIENT_ID = "" ∨ env.CLICKUP_CLIENT_SECRET = ""
  · simp only [if_pos hcfg]
    exact hdel
  · simp only [if_neg hcfg]
    cases ex with
    | failure details => exact hdel
    | success accessTok userInfo =>
      simp only
      rw [kvGet_kvPut, if_neg (fun h => tokenKey_ne_stateKey "default" s h.symm),
        kvGet_kvPut, if_neg (fun h => tokenKey_ne_stateKey _ s h.symm)]
      exact hdel

/-- C5: a state nonce consumed by one OAuth callback (validated, hence
deleted before any exchange) cannot be consumed again: a second callback
carrying the same nonce returns the invalid-state error, leaves the
store unchanged, and performs zero upstream token-exchange calls. -/
theorem claim_C5_state_single_use (P : CryptoPrims) (store : Store) (c s c2 : String)
    (env : Env) (ex ex2 : ExchangeOutcome) (now now2 : Nat) (iv iv2 : List Nat)
    (j : String) (hc : c ≠ "") (hs : s ≠ "") (hc2 : c2 ≠ "")
    (hj : kvGet store (stateKey s) = some j) :
    handleCallback P
        (handleCallback P store (some c) (some s) none env ex now iv).2.1
        (some c2) (some s) none env ex2 now2 iv2 =
      (.invalidState,
       (handleCallback P store (some c) (some s) none env ex now iv).2.1, 0) :=
  handleCallback_invalidState P _ c2 s env ex2 now2 iv2 hc2 hs
    (handleCallback_consumes_state P store c s env ex now iv j hc hs hj)

theorem claim_C5_witness :
    ("code" ≠ "" ∧ "abc" ≠ "" ∧ "code2" ≠ "" ∧
     kvGet [(stateKey "abc", "sj")] (stateKey "abc") = some "sj") ∧
    handleCallback refPrims
        (handleCallback refPrims [(stateKey "abc", "sj")] (some "code") (some "abc")
          none envStatic (.success "tok" (some (some 7))) 5 refIv1).2.1
        (some "code2") (some "abc") none envStatic (.success "tok2" (some (some 7)))
        6 refIv2 =
      (.invalidState,
       (handleCallback refPrims [(stateKey "abc", "sj")] (some "code") (some "abc")
         none envStatic (.success "tok" (some (some 7))) 5 refIv1).2.1, 0) :=
  ⟨⟨by decide, by decide, by decide, by decide⟩,
   claim_C5_state_single_use refPrims [(stateKey "abc", "sj")] "code" "abc" "code2"
     envStatic (.success "tok" (some (some 7))) (.success "tok2" (some (some 7)))
     5 6 refIv1 refIv2 "sj" (by decide) (by decide) (by decide) (by decide)⟩

end ClickUpMCP
